import Mathlib

/-!
# The build orchestrator of istio/release-builder (`pkg/build/build.go`)

A shallow embedding of `Build`, `writeLicense` and `writeManifest`.

Every call that leaves the file (the four artifact builders, the chart
sanitizer, the external commands, `yaml.Marshal`, `ioutil.WriteFile`,
`os.Create`) is an *operation* whose result is fixed by a `World`; the code
under study is translated statement by statement and threads a `State` that
records, in order, every operation invoked and every local function entered,
together with the files written so far.
-/

namespace build

/-! ## Data model -/

/-- Modelled from the spec: the enumeration `model.BuildOutput` lives in
`pkg/model`, which is not part of the sources at hand. The spec names four
output kinds (Image, PackageRepo, OSPackage, Archive); `build.go` refers to
them as `model.Docker`, `model.Helm`, `model.Debian` and `model.Archive`. -/
inductive BuildOutput
  | Docker
  | Helm
  | Debian
  | Archive
  deriving DecidableEq, Repr

/-- Modelled from the spec: the struct `model.Manifest` lives in `pkg/model`,
which is not part of the sources at hand. Only what `build.go` reads is kept:
the key set of the map `BuildOutputs`, the field `Directory`, and the results of
the methods `OutDir()` and `RepoDir(name)` (the spec: output directory and
repository locator). -/
structure Manifest where
  /-- Keys of `manifest.BuildOutputs` (a Go `map[BuildOutput]struct{}`). -/
  BuildOutputs : List BuildOutput
  Directory : String
  /-- Value of `manifest.OutDir()`. -/
  OutDir : String
  /-- Value of `manifest.RepoDir(name)`. -/
  RepoDir : String → String

/-- The Go test `_, f := manifest.BuildOutputs[k]; f`. -/
def Manifest.hasOutput (manifest : Manifest) (k : BuildOutput) : Bool :=
  decide (k ∈ manifest.BuildOutputs)

/-- A Go `error` value that is not nil. `cause` stands for a value handed back
by a collaborator (an `*exec.ExitError`, an `*os.PathError`, ...), told apart by
a code; `errorf` is a value freshly built by `fmt.Errorf`, which carries nothing
but its text. -/
inductive GoError
  | cause (code : Nat) (text : String)
  | errorf (text : String)
  deriving DecidableEq, Repr

/-- The method `Error()`. -/
def GoError.Error : GoError → String
  | .cause _ text => text
  | .errorf text => text

/-- The call `fmt.Errorf(pre + "%v", err)`: the text of `err` appended to a
constant. -/
def Errorf (pre : String) (err : GoError) : GoError :=
  .errorf (pre ++ err.Error)

/-- Operations whose code is outside `build.go`. -/
inductive Op
  | Docker
  | SanitizeAllCharts
  | Helm
  | Debian
  | Archive
  /-- The command `tar -czf out/sources.tar.gz sources`. -/
  | tar
  /-- The call `yaml.Marshal(manifest)`. -/
  | yamlMarshal
  /-- The call `ioutil.WriteFile`. -/
  | WriteFile
  /-- The command `go mod download`. -/
  | goModDownload
  /-- The call `os.Create`. -/
  | osCreate
  /-- The command `license-lint --config common/config/license-lint.yml --report`. -/
  | licenseLint
  deriving DecidableEq, Repr

/-- What a run leaves in its log: an outside operation was invoked, or one of
the two local functions was entered. -/
inductive Event
  | op (o : Op)
  | writeManifest
  | writeLicense
  deriving DecidableEq, Repr

/-- Everything the code cannot decide itself: for each outside operation whether
it succeeds (`none`, the nil of Go) or with which error it fails, and the bytes that
the archiver, the serializer and the license tool produce. -/
structure World where
  outcome : Op → Option GoError
  tarball : String
  yml : String
  report : String

/-- Files by path; `none` is an absent file. -/
abbrev FS := String → Option String

/-- Putting `data` at `file`, replacing what was there. -/
def FS.write (fs : FS) (file data : String) : FS :=
  fun q => if q = file then some data else fs q

structure State where
  /-- Operations invoked and local functions entered so far, oldest first. -/
  trace : List Event
  fs : FS

/-- The state a run starts from. -/
def State.start (fs : FS) : State :=
  { trace := [], fs := fs }

def State.log (s : State) (e : Event) : State :=
  { s with trace := s.trace ++ [e] }

/-- The call `path.Join(dir, name)` on two clean components. -/
def pathJoin (dir name : String) : String :=
  dir ++ "/" ++ name

/-! ## Outside operations -/

/-- One of `Docker(manifest)`, `SanitizeAllCharts(manifest)`, `Helm(manifest)`,
`Debian(manifest)`, `Archive(manifest)`, or `cmd.Run()` of a command whose
output is not captured: the invocation is logged and the world decides the
result. What such an operation writes to disk is not modelled. -/
def call (w : World) (o : Op) (s : State) : Option GoError × State :=
  (w.outcome o, s.log (.op o))

/-- The method `cmd.Run()` of the archiver started in `dir`: on success the
archive `out/sources.tar.gz` is there. -/
def tarRun (w : World) (dir : String) (s : State) : Option GoError × State :=
  let s := s.log (.op .tar)
  match w.outcome .tar with
  | some err => (some err, s)
  | none => (none, { s with fs := s.fs.write (pathJoin dir "out/sources.tar.gz") w.tarball })

/-- The call `yaml.Marshal(manifest)`. -/
def yamlMarshal (w : World) (s : State) : (String × Option GoError) × State :=
  ((w.yml, w.outcome .yamlMarshal), s.log (.op .yamlMarshal))

/-- The call `ioutil.WriteFile(file, data, 0640)`. -/
def WriteFile (w : World) (file data : String) (s : State) : Option GoError × State :=
  let s := s.log (.op .WriteFile)
  match w.outcome .WriteFile with
  | some err => (some err, s)
  | none => (none, { s with fs := s.fs.write file data })

/-- The call `os.Create(file)`: on success the file exists and is empty. -/
def osCreate (w : World) (file : String) (s : State) : Option GoError × State :=
  let s := s.log (.op .osCreate)
  match w.outcome .osCreate with
  | some err => (some err, s)
  | none => (none, { s with fs := s.fs.write file "" })

/-- The method `cmd.Run()` of the license tool with `cmd.Stdout` set to the open
file `file`: whatever the tool prints goes to that file, whether it then exits
with success or not. -/
def licenseLintRun (w : World) (file : String) (s : State) : Option GoError × State :=
  let s := s.log (.op .licenseLint)
  (w.outcome .licenseLint, { s with fs := s.fs.write file w.report })

/-! ## The code of `build.go` -/

/-- Go: `writeManifest` (build.go, lines 102-111). -/
def writeManifest (w : World) (_manifest : Manifest) (dir : String) (s : State) :
    Option GoError × State :=
  let s := s.log .writeManifest
  match yamlMarshal w s with
  | ((_, some err), s) => (some (Errorf "failed to marshal manifest: " err), s)
  | ((yml, none), s) =>
    match WriteFile w (pathJoin dir "manifest.yaml") yml s with
    | (some err, s) => (some (Errorf "failed to write manifest: " err), s)
    | (none, s) => (none, s)

/-- Go: `writeLicense` (build.go, lines 79-99). -/
def writeLicense (w : World) (manifest : Manifest) (s : State) : Option GoError × State :=
  let s := s.log .writeLicense
  -- License tool requires all dependencies to be downloaded
  match call w .goModDownload s with
  | (some err, s) => (some err, s)
  | (none, s) =>
    match osCreate w (pathJoin manifest.OutDir "LICENSES") s with
    | (some err, s) => (some err, s)
    | (none, s) =>
      match licenseLintRun w (pathJoin manifest.OutDir "LICENSES") s with
      | (some err, s) =>
        (some (Errorf "unable to generate license report for the istio repo: " err), s)
      | (none, s) => (none, s)

/-- Go: `Build` (build.go, lines 31-76). -/
def Build (w : World) (manifest : Manifest) (s : State) : Option GoError × State :=
  match (if manifest.hasOutput .Docker then call w .Docker s else (none, s)) with
  | (some err, s) => (some (Errorf "failed to build Docker: " err), s)
  | (none, s) =>
  match call w .SanitizeAllCharts s with
  | (some _, s) => (some (.errorf "failed to sanitize charts"), s)
  | (none, s) =>
  match (if manifest.hasOutput .Helm then call w .Helm s else (none, s)) with
  | (some err, s) => (some (Errorf "failed to build Helm: " err), s)
  | (none, s) =>
  match (if manifest.hasOutput .Debian then call w .Debian s else (none, s)) with
  | (some err, s) => (some (Errorf "failed to build Debian: " err), s)
  | (none, s) =>
  match (if manifest.hasOutput .Archive then call w .Archive s else (none, s)) with
  | (some err, s) => (some (Errorf "failed to build Archive: " err), s)
  | (none, s) =>
  -- Bundle all sources used in the build
  match tarRun w manifest.Directory s with
  | (some err, s) => (some (Errorf "failed to bundle sources: " err), s)
  | (none, s) =>
  match writeManifest w manifest manifest.OutDir s with
  | (some err, s) => (some (Errorf "failed to write manifest: " err), s)
  | (none, s) =>
  match writeLicense w manifest s with
  | (some err, s) => (some (Errorf "failed to package license file: " err), s)
  | (none, s) => (none, s)

/-! ## Vocabulary of the specification -/

/-- The eight call sites of `Build` are its steps; what happens inside
`writeManifest` and `writeLicense` is not a step of `Build`. -/
def Event.isStep : Event → Bool
  | .op .Docker => true
  | .op .SanitizeAllCharts => true
  | .op .Helm => true
  | .op .Debian => true
  | .op .Archive => true
  | .op .tar => true
  | .writeManifest => true
  | .writeLicense => true
  | .op _ => false

/-- The steps of `Build` invoked so far, oldest first. -/
def State.steps (s : State) : List Event :=
  s.trace.filter Event.isStep

/-- The builder in charge of an output kind. -/
def builder : BuildOutput → Op
  | .Docker => .Docker
  | .Helm => .Helm
  | .Debian => .Debian
  | .Archive => .Archive

/-- The fixed list of steps, in the order of the source text. -/
def fixedSteps : List Event :=
  [.op .Docker, .op .SanitizeAllCharts, .op .Helm, .op .Debian, .op .Archive,
   .op .tar, .writeManifest, .writeLicense]

/-- A builder is kept exactly when its kind is a key of `BuildOutputs`; the
other four steps are always kept. -/
def kept (manifest : Manifest) : Event → Bool
  | .op .Docker => manifest.hasOutput .Docker
  | .op .Helm => manifest.hasOutput .Helm
  | .op .Debian => manifest.hasOutput .Debian
  | .op .Archive => manifest.hasOutput .Archive
  | _ => true

/-- The steps selected by a manifest, in order. -/
def pipeline (manifest : Manifest) : List Event :=
  fixedSteps.filter (kept manifest)

/-- The three provenance steps. -/
def provenance : List Event :=
  [.op .tar, .writeManifest, .writeLicense]

/-- The four builders and the Sanitizer, in the order of the source text. -/
def conditionalSteps : List Event :=
  [.op .Docker, .op .SanitizeAllCharts, .op .Helm, .op .Debian, .op .Archive]

/-- The part of the pipeline that comes before the provenance steps. -/
def conditional (manifest : Manifest) : List Event :=
  conditionalSteps.filter (kept manifest)

/-- Where the source bundle goes: `out/sources.tar.gz` under `cmd.Dir`. -/
def sourcesPath (manifest : Manifest) : String :=
  pathJoin manifest.Directory "out/sources.tar.gz"

/-- Where the manifest snapshot goes. -/
def manifestPath (manifest : Manifest) : String :=
  pathJoin manifest.OutDir "manifest.yaml"

/-- Where the license report goes. -/
def licensesPath (manifest : Manifest) : String :=
  pathJoin manifest.OutDir "LICENSES"

/-- The state in which `writeLicense` starts the license scan when the fetch and
`os.Create` have succeeded: what `os.Create` leaves, called on what the fetch
leaves, called on the state `writeLicense` was entered in. -/
def beforeScan (w : World) (manifest : Manifest) (s : State) : State :=
  (osCreate w (pathJoin manifest.OutDir "LICENSES")
    (call w .goModDownload (s.log .writeLicense)).2).2

/-- Running one step. -/
def exec (w : World) (manifest : Manifest) : Event → State → Option GoError × State
  | .op .tar, s => tarRun w manifest.Directory s
  | .op o, s => call w o s
  | .writeManifest, s => writeManifest w manifest manifest.OutDir s
  | .writeLicense, s => writeLicense w manifest s

/-- What a step returns in a world: for an outside operation the world says so,
for the two local functions their code does. -/
def stepResult (w : World) (manifest : Manifest) (e : Event) : Option GoError :=
  (exec w manifest e (State.start (fun _ => none))).1

/-- The constant text `Build` puts in front of the cause when a step fails. -/
def stepName : Event → String
  | .op .Docker => "failed to build Docker: "
  | .op .SanitizeAllCharts => "failed to sanitize charts"
  | .op .Helm => "failed to build Helm: "
  | .op .Debian => "failed to build Debian: "
  | .op .Archive => "failed to build Archive: "
  | .op .tar => "failed to bundle sources: "
  | .writeManifest => "failed to write manifest: "
  | .writeLicense => "failed to package license file: "
  | .op _ => ""

/-- The error `Build` returns when step `e` fails with `err`. -/
def wrap (e : Event) (err : GoError) : GoError :=
  match e with
  | .op .SanitizeAllCharts => .errorf "failed to sanitize charts"
  | _ => Errorf (stepName e) err

/-- A list of steps run in order, stopping at the first failure. -/
def runSteps (w : World) (manifest : Manifest) : List Event → State → Option GoError × State
  | [], s => (none, s)
  | e :: es, s =>
    match exec w manifest e s with
    | (some err, s) => (some (wrap e err), s)
    | (none, s) => runSteps w manifest es s

/-- The elements of a list up to and including the first one that satisfies
`p`. -/
def upToFirst {α : Type} (p : α → Bool) : List α → List α
  | [] => []
  | a :: l => if p a then [a] else a :: upToFirst p l

/-- What running one step adds to the log. -/
def eventsOf (w : World) (manifest : Manifest) (e : Event) : List Event :=
  (exec w manifest e (State.start (fun _ => none))).2.trace

/-- Whether a step fails in a world. -/
def fails (w : World) (manifest : Manifest) (e : Event) : Bool :=
  (stepResult w manifest e).isSome

/-- The world in which every outside operation succeeds. -/
def World.allSucceed (w : World) : World :=
  { w with outcome := fun _ => none }

/-! ## Concrete runs -/

/-- No file at all. -/
def noFiles : FS := fun _ => none

/-- A world in which nothing fails. -/
def okWorld : World :=
  { outcome := fun _ => none, tarball := "tgz", yml := "directory: /work", report := "MIT" }

/-- A world in which exactly the operation `bad` fails, with `exit status 1`. -/
def failingAt (bad : Op) : World :=
  { okWorld with outcome := fun o => if o = bad then some (.cause 1 "exit status 1") else none }

/-- A world in which the output directory cannot be written to: `os.Create` fails
and nothing else does. -/
def readOnlyOut : World :=
  { okWorld with
    outcome := fun o =>
      if o = .osCreate then some (.cause 13 "open /work/out/LICENSES: permission denied")
      else none }

/-- A manifest asking for the outputs `outs`. -/
def manifestOf (outs : List BuildOutput) : Manifest :=
  { BuildOutputs := outs, Directory := "/work", OutDir := "/work/out",
    RepoDir := fun name => "/work/work/src/istio.io/" ++ name }

/-! ## `Build` is its pipeline, run in order -/

theorem Build_eq_runSteps (w : World) (manifest : Manifest) (s : State) :
    Build w manifest s = runSteps w manifest (pipeline manifest) s := by
  unfold Build pipeline fixedSteps
  simp only [List.filter, kept]
  cases manifest.hasOutput .Docker <;> cases manifest.hasOutput .Helm <;>
    cases manifest.hasOutput .Debian <;> cases manifest.hasOutput .Archive <;> rfl

/-! ## One step -/

theorem exec_fst (w : World) (manifest : Manifest) (e : Event) (s : State) :
    (exec w manifest e s).1 = stepResult w manifest e := by
  unfold stepResult
  cases e with
  | op o =>
    cases o <;> simp only [exec, call, tarRun]
    cases w.outcome .tar <;> rfl
  | writeManifest =>
    simp only [exec, writeManifest, yamlMarshal, WriteFile]
    cases w.outcome .yamlMarshal <;> cases w.outcome .WriteFile <;> rfl
  | writeLicense =>
    simp only [exec, writeLicense, call, osCreate, licenseLintRun]
    cases w.outcome .goModDownload <;> cases w.outcome .osCreate <;>
      cases w.outcome .licenseLint <;> rfl

theorem exec_trace (w : World) (manifest : Manifest) (e : Event) (s : State) :
    (exec w manifest e s).2.trace = s.trace ++ eventsOf w manifest e := by
  unfold eventsOf
  cases e with
  | op o =>
    cases o <;> simp only [exec, call, tarRun, State.log, State.start, List.nil_append]
    cases w.outcome .tar <;> rfl
  | writeManifest =>
    simp only [exec, writeManifest, yamlMarshal, WriteFile, State.log, State.start]
    cases w.outcome .yamlMarshal <;> cases w.outcome .WriteFile <;> simp
  | writeLicense =>
    simp only [exec, writeLicense, call, osCreate, licenseLintRun, State.log, State.start]
    cases w.outcome .goModDownload <;> cases w.outcome .osCreate <;>
      cases w.outcome .licenseLint <;> simp

theorem eventsOf_steps (w : World) (manifest : Manifest) (e : Event) (he : e.isStep = true) :
    (eventsOf w manifest e).filter Event.isStep = [e] := by
  unfold eventsOf
  cases e with
  | op o =>
    cases o <;> simp only [Event.isStep] at he <;>
      simp only [exec, call, tarRun, State.log, State.start, List.nil_append]
    all_goals first
      | rfl
      | (cases w.outcome .tar <;> rfl)
      | exact absurd he (by decide)
  | writeManifest =>
    simp only [exec, writeManifest, yamlMarshal, WriteFile, State.log, State.start]
    cases w.outcome .yamlMarshal <;> cases w.outcome .WriteFile <;> rfl
  | writeLicense =>
    simp only [exec, writeLicense, call, osCreate, licenseLintRun, State.log, State.start]
    cases w.outcome .goModDownload <;> cases w.outcome .osCreate <;>
      cases w.outcome .licenseLint <;> rfl

/-! ## Lists cut at the first hit -/

theorem upToFirst_of_all_false {α : Type} (p : α → Bool) (l : List α)
    (h : ∀ a ∈ upToFirst p l, p a = false) : upToFirst p l = l := by
  induction l with
  | nil => rfl
  | cons a l ih =>
    unfold upToFirst at h ⊢
    cases hp : p a with
    | true =>
      rw [hp] at h
      have := h a (by simp)
      rw [hp] at this
      exact absurd this (by decide)
    | false =>
      rw [hp] at h
      simp only [Bool.false_eq_true, if_false] at h ⊢
      rw [ih (fun b hb => h b (List.mem_cons_of_mem a hb))]

theorem upToFirst_split {α : Type} (p : α → Bool) (l : List α) (a : α)
    (ha : a ∈ upToFirst p l) (hp : p a = true) :
    ∃ before after, upToFirst p l = before ++ [a] ∧ (∀ b ∈ before, p b = false) ∧
      l = before ++ [a] ++ after := by
  induction l with
  | nil => simp [upToFirst] at ha
  | cons b l ih =>
    unfold upToFirst at ha ⊢
    cases hb : p b with
    | true =>
      rw [hb] at ha
      simp only [if_true, List.mem_singleton] at ha
      subst ha
      exact ⟨[], l, by simp, by simp, by simp⟩
    | false =>
      rw [hb] at ha
      simp only [Bool.false_eq_true, if_false, List.mem_cons] at ha
      rcases ha with rfl | ha
      · rw [hb] at hp
        exact absurd hp (by decide)
      · obtain ⟨before, after, h1, h2, h3⟩ := ih ha
        refine ⟨b :: before, after, by simp [h1], ?_, by simp [h3]⟩
        intro c hc
        rcases List.mem_cons.1 hc with rfl | hc
        · exact hb
        · exact h2 c hc

theorem upToFirst_sublist {α : Type} (p : α → Bool) (l : List α) :
    (upToFirst p l).Sublist l := by
  induction l with
  | nil => exact List.Sublist.refl _
  | cons a l ih =>
    unfold upToFirst
    cases p a with
    | true => simp
    | false => simpa using ih

/-! ## A pipeline run in order -/

theorem runSteps_fst (w : World) (manifest : Manifest) (l : List Event) (s : State) :
    (runSteps w manifest l s).1 =
      (l.find? (fails w manifest)).bind (fun e => (stepResult w manifest e).map (wrap e)) := by
  induction l generalizing s with
  | nil => rfl
  | cons e l ih =>
    have h := exec_fst w manifest e s
    unfold runSteps
    rcases hx : exec w manifest e s with ⟨r, s1⟩
    rw [hx] at h
    simp only at h
    cases r with
    | none => simp [List.find?, fails, ← h, ih]
    | some err => simp [List.find?, fails, ← h]

theorem runSteps_trace (w : World) (manifest : Manifest) (l : List Event) (s : State) :
    (runSteps w manifest l s).2.trace =
      s.trace ++ (upToFirst (fails w manifest) l).flatMap (eventsOf w manifest) := by
  induction l generalizing s with
  | nil => simp [runSteps, upToFirst]
  | cons e l ih =>
    have h := exec_fst w manifest e s
    have ht := exec_trace w manifest e s
    unfold runSteps upToFirst
    rcases hx : exec w manifest e s with ⟨r, s1⟩
    rw [hx] at h ht
    simp only at h ht
    cases r with
    | none => simp [fails, ← h, ih, ht]
    | some err => simp [fails, ← h, ht]

theorem runSteps_steps (w : World) (manifest : Manifest) (l : List Event) (s : State)
    (hl : ∀ e ∈ l, e.isStep = true) :
    (runSteps w manifest l s).2.steps = s.steps ++ upToFirst (fails w manifest) l := by
  unfold State.steps
  rw [runSteps_trace, List.filter_append, List.filter_flatMap]
  congr 1
  have hsub : ∀ e ∈ upToFirst (fails w manifest) l, e.isStep = true :=
    fun e he => hl e ((upToFirst_sublist _ l).subset he)
  generalize upToFirst (fails w manifest) l = u at hsub
  induction u with
  | nil => rfl
  | cons a u ih =>
    rw [List.flatMap_cons, eventsOf_steps w manifest a (hsub a (by simp)),
      ih (fun e he => hsub e (List.mem_cons_of_mem a he))]
    rfl

theorem pipeline_isStep (manifest : Manifest) : ∀ e ∈ pipeline manifest, e.isStep = true := by
  intro e he
  have : e ∈ fixedSteps := (List.mem_filter.1 he).1
  simp only [fixedSteps, List.mem_cons, List.mem_singleton, List.not_mem_nil, or_false] at this
  rcases this with rfl | rfl | rfl | rfl | rfl | rfl | rfl | rfl <;> rfl

/-- The steps a run of `Build` invokes: the pipeline, cut at the first step that
fails. -/
theorem Build_steps (w : World) (manifest : Manifest) (fs : FS) :
    (Build w manifest (State.start fs)).2.steps = upToFirst (fails w manifest) (pipeline manifest) := by
  rw [Build_eq_runSteps, runSteps_steps _ _ _ _ (pipeline_isStep manifest)]
  rfl

theorem Build_fst (w : World) (manifest : Manifest) (s : State) :
    (Build w manifest s).1 =
      ((pipeline manifest).find? (fails w manifest)).bind
        (fun e => (stepResult w manifest e).map (wrap e)) := by
  rw [Build_eq_runSteps, runSteps_fst]

theorem mem_trace_iff_mem_steps (s : State) (e : Event) (he : e.isStep = true) :
    e ∈ s.trace ↔ e ∈ s.steps := by
  simp [State.steps, he]

theorem stepResult_allSucceed (w : World) (manifest : Manifest) (e : Event) :
    stepResult w.allSucceed manifest e = none := by
  cases e with
  | op o => cases o <;> rfl
  | writeManifest => rfl
  | writeLicense => rfl

/-- When nothing fails the steps of a run are the whole pipeline. -/
theorem Build_steps_allSucceed (w : World) (manifest : Manifest) (fs : FS) :
    (Build w.allSucceed manifest (State.start fs)).2.steps = pipeline manifest := by
  rw [Build_steps]
  apply upToFirst_of_all_false
  intro e _
  simp [fails, stepResult_allSucceed]

theorem Build_fst_ne_none (w : World) (manifest : Manifest) (s : State) (e : Event)
    (he : e ∈ pipeline manifest) (hf : fails w manifest e = true) :
    (Build w manifest s).1 ≠ none := by
  rw [Build_fst]
  cases hfind : (pipeline manifest).find? (fails w manifest) with
  | none =>
    rw [List.find?_eq_none] at hfind
    exact absurd hf (hfind e he)
  | some a =>
    have ha : fails w manifest a = true := List.find?_some hfind
    unfold fails at ha
    cases hr : stepResult w manifest a with
    | none => rw [hr] at ha; exact absurd ha (by decide)
    | some err => simp [hr]

theorem find_first_fail {α : Type} (p : α → Bool) (before after : List α) (a : α)
    (hb : ∀ b ∈ before, p b = false) (ha : p a = true) :
    (before ++ [a] ++ after).find? p = some a := by
  induction before with
  | nil => simp [List.find?, ha]
  | cons b before ih =>
    have hpb : p b = false := hb b (by simp)
    have := ih (fun c hc => hb c (List.mem_cons_of_mem b hc))
    simpa [List.find?, hpb] using this

/-- The error of a run in which step `e` is invoked and fails with `err`. -/
theorem Build_fst_of_fail (w : World) (manifest : Manifest) (fs : FS) (e : Event) (err : GoError)
    (hinv : e ∈ (Build w manifest (State.start fs)).2.steps)
    (hr : stepResult w manifest e = some err) :
    (Build w manifest (State.start fs)).1 = some (wrap e err) := by
  have hf : fails w manifest e = true := by simp [fails, hr]
  rw [Build_steps] at hinv
  obtain ⟨before, after, _, h2, h3⟩ := upToFirst_split _ _ e hinv hf
  rw [Build_fst, h3, find_first_fail _ before after e h2 hf]
  simp [hr]

theorem Build_fst_eq_none_iff (w : World) (manifest : Manifest) (s : State) :
    (Build w manifest s).1 = none ↔ ∀ e ∈ pipeline manifest, stepResult w manifest e = none := by
  constructor
  · intro h e he
    cases hr : stepResult w manifest e with
    | none => rfl
    | some err =>
      exact absurd h (Build_fst_ne_none w manifest s e he (by simp [fails, hr]))
  · intro h
    rw [Build_fst]
    have hnone : (pipeline manifest).find? (fails w manifest) = none := by
      rw [List.find?_eq_none]
      intro e he
      simp [fails, h e he]
    rw [hnone]
    rfl

/-! ## The conditional part and the provenance part -/

theorem pipeline_eq (manifest : Manifest) :
    pipeline manifest = conditional manifest ++ provenance := by
  unfold pipeline conditional
  have h : fixedSteps = conditionalSteps ++ provenance := rfl
  rw [h, List.filter_append]
  rfl

theorem runSteps_append (w : World) (manifest : Manifest) (l₁ l₂ : List Event) (s : State) :
    runSteps w manifest (l₁ ++ l₂) s =
      match runSteps w manifest l₁ s with
      | (some err, s1) => (some err, s1)
      | (none, s1) => runSteps w manifest l₂ s1 := by
  induction l₁ generalizing s with
  | nil => rfl
  | cons e l ih =>
    simp only [List.cons_append, runSteps]
    rcases exec w manifest e s with ⟨r, s1⟩
    cases r with
    | none => exact ih s1
    | some err => rfl

theorem Build_split (w : World) (manifest : Manifest) (s : State) :
    Build w manifest s =
      match runSteps w manifest (conditional manifest) s with
      | (some err, s1) => (some err, s1)
      | (none, s1) => runSteps w manifest provenance s1 := by
  rw [Build_eq_runSteps, pipeline_eq, runSteps_append]

/-- The conditional part writes no file that is modelled and logs only builders
and the Sanitizer. -/
theorem runSteps_conditional (w : World) (manifest : Manifest) (l : List Event) (s : State)
    (hl : ∀ e ∈ l, e ∈ conditionalSteps) :
    (runSteps w manifest l s).2.fs = s.fs ∧
    (runSteps w manifest l s).2.trace = s.trace ++ upToFirst (fails w manifest) l := by
  induction l generalizing s with
  | nil => simp [runSteps, upToFirst]
  | cons e l ih =>
    have he : e ∈ conditionalSteps := hl e (by simp)
    have hex : exec w manifest e s = (stepResult w manifest e, s.log e) := by
      simp only [conditionalSteps, List.mem_cons, List.mem_singleton, List.not_mem_nil,
        or_false] at he
      rcases he with rfl | rfl | rfl | rfl | rfl <;> rfl
    have ih1 := ih (s.log e) (fun a ha => hl a (List.mem_cons_of_mem e ha))
    unfold runSteps upToFirst
    rw [hex]
    cases hr : stepResult w manifest e with
    | none =>
      simp only [fails, hr, Option.isSome_none, Bool.false_eq_true, if_false]
      refine ⟨ih1.1, ?_⟩
      rw [ih1.2]
      simp [State.log]
    | some err =>
      simp [fails, hr, State.log]

theorem conditional_mem (manifest : Manifest) :
    ∀ e ∈ conditional manifest, e ∈ conditionalSteps :=
  fun _ he => (List.mem_filter.1 he).1

/-- The provenance part, spelled out. -/
theorem runSteps_provenance (w : World) (manifest : Manifest) (s : State) :
    runSteps w manifest provenance s =
      match tarRun w manifest.Directory s with
      | (some err, s) => (some (Errorf "failed to bundle sources: " err), s)
      | (none, s) =>
        match writeManifest w manifest manifest.OutDir s with
        | (some err, s) => (some (Errorf "failed to write manifest: " err), s)
        | (none, s) =>
          match writeLicense w manifest s with
          | (some err, s) => (some (Errorf "failed to package license file: " err), s)
          | (none, s) => (none, s) := by
  rfl

theorem upToFirst_append_of_all_false {α : Type} (p : α → Bool) (l₁ l₂ : List α)
    (h : ∀ a ∈ l₁, p a = false) : upToFirst p (l₁ ++ l₂) = l₁ ++ upToFirst p l₂ := by
  induction l₁ with
  | nil => rfl
  | cons a l ih =>
    have ha : p a = false := h a (by simp)
    simp only [List.cons_append, upToFirst, ha, Bool.false_eq_true, if_false]
    exact congrArg (List.cons a) (ih (fun b hb => h b (List.mem_cons_of_mem a hb)))

theorem stepResult_op (w : World) (manifest : Manifest) (o : Op) :
    stepResult w manifest (.op o) = w.outcome o := by
  cases o <;> simp only [stepResult, exec, call, tarRun]
  cases w.outcome .tar <;> rfl

theorem stepResult_writeManifest_none (w : World) (manifest : Manifest)
    (h : stepResult w manifest .writeManifest = none) :
    w.outcome .yamlMarshal = none ∧ w.outcome .WriteFile = none := by
  simp only [stepResult, exec, writeManifest, yamlMarshal, WriteFile] at h
  cases h1 : w.outcome .yamlMarshal <;> cases h2 : w.outcome .WriteFile <;>
    simp [h1, h2] at h ⊢

theorem stepResult_writeLicense_none (w : World) (manifest : Manifest)
    (h : stepResult w manifest .writeLicense = none) :
    w.outcome .goModDownload = none ∧ w.outcome .osCreate = none ∧
      w.outcome .licenseLint = none := by
  simp only [stepResult, exec, writeLicense, call, osCreate, licenseLintRun] at h
  cases h1 : w.outcome .goModDownload <;> cases h2 : w.outcome .osCreate <;>
    cases h3 : w.outcome .licenseLint <;> simp [h1, h2, h3] at h ⊢

/-- The files of a run that returns nil. -/
theorem Build_fs_of_nil (w : World) (manifest : Manifest) (fs : FS)
    (h : (Build w manifest (State.start fs)).1 = none) :
    (Build w manifest (State.start fs)).2.fs =
      (((fs.write (sourcesPath manifest) w.tarball).write (manifestPath manifest) w.yml).write
        (licensesPath manifest) "").write (licensesPath manifest) w.report := by
  have hall := (Build_fst_eq_none_iff w manifest _).1 h
  have hprov : ∀ e ∈ provenance, stepResult w manifest e = none := by
    intro e he
    apply hall
    rw [pipeline_eq]
    exact List.mem_append_right _ he
  have htar : w.outcome .tar = none := by
    rw [← stepResult_op w manifest]
    exact hprov _ (by simp [provenance])
  obtain ⟨hy, hw⟩ := stepResult_writeManifest_none w manifest (hprov _ (by simp [provenance]))
  obtain ⟨hg, hc, hl⟩ := stepResult_writeLicense_none w manifest (hprov _ (by simp [provenance]))
  have hcond := runSteps_conditional w manifest (conditional manifest) (State.start fs)
    (conditional_mem manifest)
  rw [Build_split] at h ⊢
  rcases hx : runSteps w manifest (conditional manifest) (State.start fs) with ⟨r, s1⟩
  rw [hx] at h hcond
  cases r with
  | some err => simp at h
  | none =>
    simp only at hcond ⊢
    rw [runSteps_provenance]
    simp [tarRun, writeManifest, yamlMarshal, WriteFile, writeLicense, call, osCreate,
      licenseLintRun, State.log, htar, hy, hw, hg, hc, hl, hcond.1, State.start, sourcesPath,
      manifestPath, licensesPath]

theorem write_ne_none (fs : FS) (file data q : String) (h : fs q ≠ none) :
    (fs.write file data) q ≠ none := by
  unfold FS.write
  split
  · simp
  · exact h

theorem write_self (fs : FS) (file data : String) : (fs.write file data) file = some data := by
  simp [FS.write]

theorem count_provenance_le (l : List Event) (hl : l.Sublist fixedSteps) :
    ∀ p ∈ provenance, l.count p ≤ 1 := by
  intro p hp
  have h1 := hl.count_le p
  have h2 : fixedSteps.count p = 1 := by
    simp only [provenance, List.mem_cons, List.mem_singleton, List.not_mem_nil, or_false] at hp
    rcases hp with rfl | rfl | rfl <;> decide
  omega

theorem count_trace_eq_count_steps (s : State) (e : Event) (he : e.isStep = true) :
    s.trace.count e = s.steps.count e := by
  unfold State.steps
  rw [List.count_filter he]

/-- A run that gets as far as `writeLicense`: everything before it succeeded,
and `writeLicense` starts with the source bundle and the manifest written. -/
theorem Build_at_writeLicense (w : World) (manifest : Manifest) (fs : FS) (ev : Event)
    (hev : ev ∈ [Event.writeLicense, .op .goModDownload, .op .osCreate, .op .licenseLint])
    (hinv : ev ∈ (Build w manifest (State.start fs)).2.trace) :
    w.outcome .tar = none ∧ w.outcome .yamlMarshal = none ∧ w.outcome .WriteFile = none ∧
    ∃ pre, (∀ e ∈ pre, e ∈ conditionalSteps) ∧
      Build w manifest (State.start fs) =
        match writeLicense w manifest
          { trace := pre ++ [.op .tar, .writeManifest, .op .yamlMarshal, .op .WriteFile],
            fs := (fs.write (sourcesPath manifest) w.tarball).write (manifestPath manifest)
              w.yml } with
        | (some err, s) => (some (Errorf "failed to package license file: " err), s)
        | (none, s) => (none, s) := by
  have hcond := runSteps_conditional w manifest (conditional manifest) (State.start fs)
    (conditional_mem manifest)
  have hnc : ev ∉ conditionalSteps := by
    simp only [List.mem_cons, List.mem_singleton, List.not_mem_nil, or_false] at hev
    rcases hev with rfl | rfl | rfl | rfl <;> decide
  have hne : ev ≠ .op .tar ∧ ev ≠ .writeManifest ∧ ev ≠ .op .yamlMarshal ∧
      ev ≠ .op .WriteFile := by
    simp only [List.mem_cons, List.mem_singleton, List.not_mem_nil, or_false] at hev
    rcases hev with rfl | rfl | rfl | rfl <;> decide
  rw [Build_split] at hinv ⊢
  rcases hx : runSteps w manifest (conditional manifest) (State.start fs) with ⟨r, s1⟩
  rw [hx] at hinv hcond
  simp only [State.start, List.nil_append] at hcond
  have hs1 : ∀ e ∈ s1.trace, e ∈ conditionalSteps := by
    intro e he
    rw [hcond.2] at he
    exact conditional_mem manifest e ((upToFirst_sublist _ _).subset he)
  have hev1 : ev ∉ s1.trace := fun h => hnc (hs1 ev h)
  cases r with
  | some err => exact absurd hinv hev1
  | none =>
    simp only at hinv ⊢
    rw [runSteps_provenance] at hinv ⊢
    cases htar : w.outcome .tar with
    | some e =>
      simp [tarRun, htar, State.log, hev1, hne.1] at hinv
    | none =>
      cases hy : w.outcome .yamlMarshal with
      | some e =>
        simp [tarRun, htar, writeManifest, yamlMarshal, hy, State.log, hev1, hne.1, hne.2.1,
          hne.2.2.1] at hinv
      | none =>
        cases hw : w.outcome .WriteFile with
        | some e =>
          simp [tarRun, htar, writeManifest, yamlMarshal, hy, WriteFile, hw, State.log, hev1,
            hne.1, hne.2.1, hne.2.2.1, hne.2.2.2] at hinv
        | none =>
          refine ⟨rfl, rfl, rfl, s1.trace, hs1, ?_⟩
          simp [tarRun, htar, writeManifest, yamlMarshal, hy, WriteFile, hw, State.log, hcond.1,
            sourcesPath, manifestPath]

/-- Every call site but the one of the Sanitizer reports the cause after the name
of the step. -/
theorem wrap_carries_cause (e : Event) (err : GoError) (h : e ≠ .op .SanitizeAllCharts) :
    (wrap e err).Error = stepName e ++ err.Error := by
  cases e with
  | op o => cases o <;> first | rfl | exact absurd rfl h
  | writeManifest => rfl
  | writeLicense => rfl

/-! ## The claims -/

/-- C1: for every manifest, if every step that `Build` invokes succeeds, then
`Build` returns nil and the steps it invoked are exactly the fixed list
Docker, SanitizeAllCharts, Helm, Debian, Archive, tar, writeManifest,
writeLicense in which a builder is kept if and only if its kind is a key of
`BuildOutputs` and the other four steps are always kept. -/
theorem Build_all_succeed (w : World) (manifest : Manifest) (fs : FS)
    (h : ∀ e ∈ (Build w manifest (State.start fs)).2.steps, stepResult w manifest e = none) :
    (Build w manifest (State.start fs)).1 = none ∧
    (Build w manifest (State.start fs)).2.steps =
      [Event.op .Docker, .op .SanitizeAllCharts, .op .Helm, .op .Debian, .op .Archive,
        .op .tar, .writeManifest, .writeLicense].filter
        (fun e => match e with
          | .op .Docker => decide (BuildOutput.Docker ∈ manifest.BuildOutputs)
          | .op .Helm => decide (BuildOutput.Helm ∈ manifest.BuildOutputs)
          | .op .Debian => decide (BuildOutput.Debian ∈ manifest.BuildOutputs)
          | .op .Archive => decide (BuildOutput.Archive ∈ manifest.BuildOutputs)
          | _ => true) := by
  have hcut : upToFirst (fails w manifest) (pipeline manifest) = pipeline manifest := by
    apply upToFirst_of_all_false
    intro e he
    rw [← Build_steps w manifest fs] at he
    simp [fails, h e he]
  have hsteps := Build_steps w manifest fs
  rw [hcut] at hsteps
  constructor
  · rw [Build_fst]
    have hnone : (pipeline manifest).find? (fails w manifest) = none := by
      rw [List.find?_eq_none]
      intro e he
      rw [← hsteps] at he
      simp [fails, h e he]
    rw [hnone]
    rfl
  · rw [hsteps]
    rfl

/-- C1, witness: with `BuildOutputs = {Docker, Archive}` and nothing failing the
steps are Docker, Sanitizer, Archive, source bundle, writeManifest,
writeLicense, and no other. -/
theorem Build_all_succeed_witness :
    (∀ e ∈ (Build okWorld (manifestOf [.Docker, .Archive]) (State.start noFiles)).2.steps,
      stepResult okWorld (manifestOf [.Docker, .Archive]) e = none) ∧
    (Build okWorld (manifestOf [.Docker, .Archive]) (State.start noFiles)).1 = none ∧
    (Build okWorld (manifestOf [.Docker, .Archive]) (State.start noFiles)).2.steps =
      [.op .Docker, .op .SanitizeAllCharts, .op .Archive, .op .tar, .writeManifest,
        .writeLicense] :=
  have hyp : ∀ e ∈ (Build okWorld (manifestOf [.Docker, .Archive]) (State.start noFiles)).2.steps,
      stepResult okWorld (manifestOf [.Docker, .Archive]) e = none := by decide
  ⟨hyp, (Build_all_succeed okWorld (manifestOf [.Docker, .Archive]) noFiles hyp).1,
    (Build_all_succeed okWorld (manifestOf [.Docker, .Archive]) noFiles hyp).2.trans (by decide)⟩

/-- C2: fail-fast. For every manifest and every assignment of results to the
operations, if a step invoked by `Build` fails then `Build` returns an error,
the failing step is the last step invoked, every step before it succeeded, and
the steps invoked are an initial segment of the steps `Build` invokes when
nothing fails. -/
theorem Build_fail_fast (w : World) (manifest : Manifest) (fs : FS) (e : Event)
    (hinv : e ∈ (Build w manifest (State.start fs)).2.steps)
    (hfail : stepResult w manifest e ≠ none) :
    (Build w manifest (State.start fs)).1 ≠ none ∧
    ∃ before after,
      (Build w manifest (State.start fs)).2.steps = before ++ [e] ∧
      (∀ b ∈ before, stepResult w manifest b = none) ∧
      (Build w.allSucceed manifest (State.start fs)).2.steps = before ++ [e] ++ after := by
  have hf : fails w manifest e = true := by
    unfold fails
    cases hr : stepResult w manifest e with
    | none => exact absurd hr hfail
    | some err => rfl
  rw [Build_steps] at hinv
  obtain ⟨before, after, h1, h2, h3⟩ := upToFirst_split _ _ e hinv hf
  refine ⟨Build_fst_ne_none w manifest _ e ?_ hf, before, after, ?_, ?_, ?_⟩
  · rw [h3]; simp
  · rw [Build_steps, h1]
  · intro b hb
    have := h2 b hb
    unfold fails at this
    cases hr : stepResult w manifest b with
    | none => rfl
    | some err => simp [hr] at this
  · rw [Build_steps_allSucceed, h3]

/-- C2, witness: Docker and Helm are asked for and Helm fails; the run stops
after Docker, Sanitizer, Helm. -/
theorem Build_fail_fast_witness :
    Event.op .Helm ∈ (Build (failingAt .Helm) (manifestOf [.Docker, .Helm])
      (State.start noFiles)).2.steps ∧
    stepResult (failingAt .Helm) (manifestOf [.Docker, .Helm]) (.op .Helm) ≠ none ∧
    (Build (failingAt .Helm) (manifestOf [.Docker, .Helm]) (State.start noFiles)).1 ≠ none ∧
    (Build (failingAt .Helm) (manifestOf [.Docker, .Helm]) (State.start noFiles)).2.steps =
      [.op .Docker, .op .SanitizeAllCharts, .op .Helm] :=
  ⟨by decide, by decide,
    (Build_fail_fast (failingAt .Helm) (manifestOf [.Docker, .Helm]) noFiles (.op .Helm)
      (by decide) (by decide)).1,
    by decide⟩

/-- C4: for every manifest and every assignment of results to the operations, the
builder of a kind that is not a key of `BuildOutputs` is never invoked by
`Build`. -/
theorem Build_skips_unselected (w : World) (manifest : Manifest) (fs : FS) (k : BuildOutput)
    (hk : k ∉ manifest.BuildOutputs) :
    Event.op (builder k) ∉ (Build w manifest (State.start fs)).2.trace := by
  intro hmem
  have hstep : (Event.op (builder k)).isStep = true := by cases k <;> rfl
  rw [mem_trace_iff_mem_steps _ _ hstep, Build_steps] at hmem
  have hpipe : Event.op (builder k) ∈ pipeline manifest :=
    (upToFirst_sublist _ _).subset hmem
  have hkept : kept manifest (.op (builder k)) = true := (List.mem_filter.1 hpipe).2
  apply hk
  cases k <;> simpa [kept, builder, Manifest.hasOutput] using hkept

/-- C4, witnesses: with `BuildOutputs = {Docker}` the Helm, Debian and Archive
builders are never invoked; with `BuildOutputs` empty no builder is. -/
theorem Build_skips_unselected_witness :
    (BuildOutput.Helm ∉ (manifestOf [.Docker]).BuildOutputs ∧
      BuildOutput.Debian ∉ (manifestOf [.Docker]).BuildOutputs ∧
      BuildOutput.Archive ∉ (manifestOf [.Docker]).BuildOutputs) ∧
    (Event.op .Helm ∉ (Build okWorld (manifestOf [.Docker]) (State.start noFiles)).2.trace ∧
      Event.op .Debian ∉ (Build okWorld (manifestOf [.Docker]) (State.start noFiles)).2.trace ∧
      Event.op .Archive ∉ (Build okWorld (manifestOf [.Docker]) (State.start noFiles)).2.trace) ∧
    ∀ k : BuildOutput,
      Event.op (builder k) ∉ (Build okWorld (manifestOf []) (State.start noFiles)).2.trace :=
  ⟨⟨by decide, by decide, by decide⟩,
    ⟨Build_skips_unselected okWorld (manifestOf [.Docker]) noFiles .Helm (by decide),
      Build_skips_unselected okWorld (manifestOf [.Docker]) noFiles .Debian (by decide),
      Build_skips_unselected okWorld (manifestOf [.Docker]) noFiles .Archive (by decide)⟩,
    fun k => Build_skips_unselected okWorld (manifestOf []) noFiles k (by simp [manifestOf])⟩

/-- C5, as stated, fails: Docker is asked for and the Docker builder fails; the
run ends there and the Sanitizer is not executed. -/
theorem Build_sanitizer_not_run :
    Event.op .SanitizeAllCharts ∉
      (Build (failingAt .Docker) (manifestOf [.Docker]) (State.start noFiles)).2.trace ∧
    (Build (failingAt .Docker) (manifestOf [.Docker]) (State.start noFiles)).2.trace =
      [.op .Docker] ∧
    (Build (failingAt .Docker) (manifestOf [.Docker]) (State.start noFiles)).1 =
      some (.errorf "failed to build Docker: exit status 1") :=
  ⟨by decide, by decide, by decide⟩

/-- C5, amended: on every run of `Build` in which the Docker builder is not asked
for or succeeds, whatever `BuildOutputs` contains, the Sanitizer step is
executed. -/
theorem Build_runs_sanitizer (w : World) (manifest : Manifest) (fs : FS)
    (h : BuildOutput.Docker ∈ manifest.BuildOutputs → w.outcome .Docker = none) :
    Event.op .SanitizeAllCharts ∈ (Build w manifest (State.start fs)).2.trace := by
  rw [mem_trace_iff_mem_steps _ (.op .SanitizeAllCharts) rfl, Build_steps]
  unfold pipeline fixedSteps
  simp only [List.filter, kept]
  cases hD : manifest.hasOutput .Docker with
  | false =>
    simp only [upToFirst]
    split <;> simp
  | true =>
    have hin : BuildOutput.Docker ∈ manifest.BuildOutputs := by
      simpa [Manifest.hasOutput] using hD
    have hok : fails w manifest (.op .Docker) = false := by
      simp [fails, stepResult, exec, call, h hin]
    simp only [upToFirst, hok]
    simp only [Bool.false_eq_true, if_false, List.mem_cons]
    right
    split <;> simp

/-- C5, witness of the amended claim: Docker is asked for and succeeds, the
Sanitizer runs. -/
theorem Build_runs_sanitizer_witness :
    (BuildOutput.Docker ∈ (manifestOf [.Docker]).BuildOutputs →
      okWorld.outcome .Docker = none) ∧
    Event.op .SanitizeAllCharts ∈
      (Build okWorld (manifestOf [.Docker]) (State.start noFiles)).2.trace :=
  ⟨fun _ => rfl, Build_runs_sanitizer okWorld (manifestOf [.Docker]) noFiles (fun _ => rfl)⟩

/-- C3, the code at the failing input: nothing is asked for and the Sanitizer
fails with `exit status 1`. The Sanitizer is invoked and is the first step to
fail, and the error `Build` returns is the bare text `failed to sanitize charts`:
it is not a text followed by the message of the cause, whereas a failing Docker
builder, one call site earlier, is reported with its cause. -/
theorem Build_sanitizer_error_drops_cause :
    Event.op .SanitizeAllCharts ∈
      (Build (failingAt .SanitizeAllCharts) (manifestOf []) (State.start noFiles)).2.steps ∧
    stepResult (failingAt .SanitizeAllCharts) (manifestOf []) (.op .SanitizeAllCharts) =
      some (.cause 1 "exit status 1") ∧
    (Build (failingAt .SanitizeAllCharts) (manifestOf []) (State.start noFiles)).1 =
      some (.errorf "failed to sanitize charts") ∧
    (¬ ∃ pre : String, (GoError.errorf "failed to sanitize charts").Error =
      pre ++ (GoError.cause 1 "exit status 1").Error) ∧
    (Build (failingAt .Docker) (manifestOf [.Docker]) (State.start noFiles)).1 =
      some (.errorf ("failed to build Docker: " ++ (GoError.cause 1 "exit status 1").Error)) := by
  refine ⟨by decide, by decide, by decide, ?_, by decide⟩
  rintro ⟨pre, h⟩
  have hd := congrArg String.data h
  simp only [GoError.Error, String.data_append] at hd
  have hs : "exit status 1".data <:+ "failed to sanitize charts".data := ⟨pre.data, hd.symm⟩
  exact absurd hs (by decide)

/-- C7: for every manifest, if `SanitizeAllCharts` is invoked and fails, then
`Build` returns the error `failed to sanitize charts`, invokes none of the Helm,
Debian and Archive builders, executes no provenance step (no source bundle, no
write of `manifest.yaml`, no creation of `LICENSES`) and writes no file. -/
theorem Build_sanitizer_failure (w : World) (manifest : Manifest) (fs : FS) (err : GoError)
    (hinv : Event.op .SanitizeAllCharts ∈ (Build w manifest (State.start fs)).2.trace)
    (hS : w.outcome .SanitizeAllCharts = some err) :
    (Build w manifest (State.start fs)).1 = some (.errorf "failed to sanitize charts") ∧
    (Event.op .Helm ∉ (Build w manifest (State.start fs)).2.trace ∧
      Event.op .Debian ∉ (Build w manifest (State.start fs)).2.trace ∧
      Event.op .Archive ∉ (Build w manifest (State.start fs)).2.trace) ∧
    (Event.op .tar ∉ (Build w manifest (State.start fs)).2.trace ∧
      Event.writeManifest ∉ (Build w manifest (State.start fs)).2.trace ∧
      Event.op .WriteFile ∉ (Build w manifest (State.start fs)).2.trace ∧
      Event.writeLicense ∉ (Build w manifest (State.start fs)).2.trace ∧
      Event.op .osCreate ∉ (Build w manifest (State.start fs)).2.trace) ∧
    (Build w manifest (State.start fs)).2.fs = fs := by
  cases hD : manifest.hasOutput .Docker with
  | false =>
    have key : Build w manifest (State.start fs) =
        (some (.errorf "failed to sanitize charts"),
          { trace := [.op .SanitizeAllCharts], fs := fs }) := by
      simp [Build, hD, call, hS, State.log, State.start]
    rw [key]
    simp
  | true =>
    cases hO : w.outcome .Docker with
    | some e =>
      have key : (Build w manifest (State.start fs)).2.trace = [.op .Docker] := by
        simp [Build, hD, call, hO, State.log, State.start]
      rw [key] at hinv
      simp at hinv
    | none =>
      have key : Build w manifest (State.start fs) =
          (some (.errorf "failed to sanitize charts"),
            { trace := [.op .Docker, .op .SanitizeAllCharts], fs := fs }) := by
        simp [Build, hD, call, hO, hS, State.log, State.start]
      rw [key]
      simp

/-- C7, witness: Helm is asked for and the Sanitizer fails. -/
theorem Build_sanitizer_failure_witness :
    Event.op .SanitizeAllCharts ∈
      (Build (failingAt .SanitizeAllCharts) (manifestOf [.Helm]) (State.start noFiles)).2.trace ∧
    (failingAt .SanitizeAllCharts).outcome .SanitizeAllCharts = some (.cause 1 "exit status 1") ∧
    (Build (failingAt .SanitizeAllCharts) (manifestOf [.Helm]) (State.start noFiles)).1 =
      some (.errorf "failed to sanitize charts") ∧
    Event.op .Helm ∉
      (Build (failingAt .SanitizeAllCharts) (manifestOf [.Helm]) (State.start noFiles)).2.trace :=
  ⟨by decide, by decide,
    (Build_sanitizer_failure (failingAt .SanitizeAllCharts) (manifestOf [.Helm]) noFiles
      (.cause 1 "exit status 1") (by decide) (by decide)).1,
    (Build_sanitizer_failure (failingAt .SanitizeAllCharts) (manifestOf [.Helm]) noFiles
      (.cause 1 "exit status 1") (by decide) (by decide)).2.1.1⟩

/-- C6: for every manifest, (1) if the Sanitizer and every builder selected by
`BuildOutputs` succeed, `Build` goes on to the provenance steps; (2) in every run
that returns nil the steps are builders and the Sanitizer followed by the source
bundle, `writeManifest` and `writeLicense`, each executed exactly once and in that
order, and `sources.tar.gz`, `manifest.yaml` and `LICENSES` are there at the end;
(3) in no run is a provenance step executed more than once. -/
theorem Build_provenance (w : World) (manifest : Manifest) (fs : FS) :
    ((w.outcome .SanitizeAllCharts = none ∧
        ∀ k ∈ manifest.BuildOutputs, w.outcome (builder k) = none) →
      Event.op .tar ∈ (Build w manifest (State.start fs)).2.trace) ∧
    ((Build w manifest (State.start fs)).1 = none →
      (∃ pre, (Build w manifest (State.start fs)).2.steps =
          pre ++ [.op .tar, .writeManifest, .writeLicense] ∧
        (∀ e ∈ pre, e ∈ [Event.op .Docker, .op .SanitizeAllCharts, .op .Helm, .op .Debian,
          .op .Archive]) ∧
        Event.op .SanitizeAllCharts ∈ pre) ∧
      (∀ p ∈ [Event.op .tar, .writeManifest, .writeLicense],
        (Build w manifest (State.start fs)).2.trace.count p = 1) ∧
      (Build w manifest (State.start fs)).2.fs (sourcesPath manifest) ≠ none ∧
      (Build w manifest (State.start fs)).2.fs (manifestPath manifest) ≠ none ∧
      (Build w manifest (State.start fs)).2.fs (licensesPath manifest) = some w.report) ∧
    (∀ p ∈ [Event.op .tar, .writeManifest, .writeLicense],
      (Build w manifest (State.start fs)).2.trace.count p ≤ 1) := by
  have hstepP : ∀ p ∈ provenance, p.isStep = true := by
    intro p hp
    simp only [provenance, List.mem_cons, List.mem_singleton, List.not_mem_nil, or_false] at hp
    rcases hp with rfl | rfl | rfl <;> rfl
  refine ⟨?_, ?_, ?_⟩
  · rintro ⟨hS, hB⟩
    have hcond : ∀ e ∈ conditional manifest, fails w manifest e = false := by
      intro e he
      obtain ⟨hmem, hkept⟩ := List.mem_filter.1 he
      simp only [conditionalSteps, List.mem_cons, List.mem_singleton, List.not_mem_nil,
        or_false] at hmem
      rcases hmem with rfl | rfl | rfl | rfl | rfl
      · simp [fails, stepResult_op,
          hB .Docker (by simpa [kept, Manifest.hasOutput] using hkept), ← show
            builder .Docker = Op.Docker from rfl]
      · simp [fails, stepResult_op, hS]
      · simp [fails, stepResult_op,
          hB .Helm (by simpa [kept, Manifest.hasOutput] using hkept), ← show
            builder .Helm = Op.Helm from rfl]
      · simp [fails, stepResult_op,
          hB .Debian (by simpa [kept, Manifest.hasOutput] using hkept), ← show
            builder .Debian = Op.Debian from rfl]
      · simp [fails, stepResult_op,
          hB .Archive (by simpa [kept, Manifest.hasOutput] using hkept), ← show
            builder .Archive = Op.Archive from rfl]
    rw [mem_trace_iff_mem_steps _ (.op .tar) rfl, Build_steps, pipeline_eq,
      upToFirst_append_of_all_false _ _ _ hcond]
    apply List.mem_append_right
    simp only [provenance, upToFirst]
    split <;> simp
  · intro hnil
    have hall := (Build_fst_eq_none_iff w manifest _).1 hnil
    have hsteps : (Build w manifest (State.start fs)).2.steps =
        conditional manifest ++ provenance := by
      rw [Build_steps, ← pipeline_eq]
      apply upToFirst_of_all_false
      intro e he
      simp [fails, hall e ((upToFirst_sublist _ _).subset he)]
    have hfs := Build_fs_of_nil w manifest fs hnil
    refine ⟨⟨conditional manifest, hsteps, conditional_mem manifest, ?_⟩, ?_, ?_, ?_, ?_⟩
    · exact List.mem_filter.2 ⟨by decide, rfl⟩
    · intro p hp
      rw [count_trace_eq_count_steps _ p (hstepP p hp), hsteps, List.count_append]
      have h0 : (conditional manifest).count p = 0 := by
        apply List.count_eq_zero_of_not_mem
        intro hmem
        have hc := conditional_mem manifest p hmem
        simp only [List.mem_cons, List.mem_singleton, List.not_mem_nil, or_false] at hp
        rcases hp with rfl | rfl | rfl <;> exact absurd hc (by decide)
      have h1 : provenance.count p = 1 := by
        simp only [List.mem_cons, List.mem_singleton, List.not_mem_nil, or_false] at hp
        rcases hp with rfl | rfl | rfl <;> decide
      omega
    · rw [hfs]
      exact write_ne_none _ _ _ _ (write_ne_none _ _ _ _ (write_ne_none _ _ _ _
        (by rw [write_self]; simp)))
    · rw [hfs]
      exact write_ne_none _ _ _ _ (write_ne_none _ _ _ _ (by rw [write_self]; simp))
    · rw [hfs, write_self]
  · intro p hp
    rw [count_trace_eq_count_steps _ p (hstepP p hp)]
    apply count_provenance_le _ _ p hp
    rw [Build_steps]
    exact (upToFirst_sublist _ _).trans (List.filter_sublist _)

/-- C6, witness: `BuildOutputs` is empty and nothing fails; the run reaches the
source bundle and returns nil, so the three provenance steps ran once each. -/
theorem Build_provenance_witness :
    ((okWorld.outcome .SanitizeAllCharts = none ∧
        ∀ k ∈ (manifestOf []).BuildOutputs, okWorld.outcome (builder k) = none) ∧
      Event.op .tar ∈ (Build okWorld (manifestOf []) (State.start noFiles)).2.trace) ∧
    ((Build okWorld (manifestOf []) (State.start noFiles)).1 = none ∧
      (Build okWorld (manifestOf []) (State.start noFiles)).2.steps =
        [.op .SanitizeAllCharts, .op .tar, .writeManifest, .writeLicense] ∧
      (Build okWorld (manifestOf []) (State.start noFiles)).2.fs
        (licensesPath (manifestOf [])) = some "MIT") :=
  ⟨⟨⟨rfl, fun _ _ => rfl⟩,
      (Build_provenance okWorld (manifestOf []) noFiles).1 ⟨rfl, fun _ _ => rfl⟩⟩,
    by decide, by decide,
    ((Build_provenance okWorld (manifestOf []) noFiles).2.1 (by decide)).2.2.2.2⟩

/-- C8: for every manifest, (1) whenever `writeLicense` is entered and its fetch
`go mod download` fails, it returns that error at once, runs nothing else and
writes nothing; (2) in a run of `Build` in which the fetch is invoked and fails,
the log ends with the source bundle, `writeManifest` (marshal, then write), the
entry to `writeLicense` and the fetch, the source bundle and `writeManifest` had
succeeded, `sources.tar.gz` and `manifest.yaml` are on disk and are the only
files written, `LICENSES` is never created and the license scan never run;
(3) in every run of `Build` in which the scan is run, the fetch came before it
and had succeeded. -/
theorem writeLicense_fetch_failure (w : World) (manifest : Manifest) (fs : FS) :
    (∀ (s : State) (err : GoError), w.outcome .goModDownload = some err →
      writeLicense w manifest s =
        (some err, { trace := s.trace ++ [.writeLicense, .op .goModDownload], fs := s.fs })) ∧
    (∀ err : GoError,
      Event.op .goModDownload ∈ (Build w manifest (State.start fs)).2.trace →
      w.outcome .goModDownload = some err →
      (∃ pre, (∀ e ∈ pre, e ∈ [Event.op .Docker, .op .SanitizeAllCharts, .op .Helm,
            .op .Debian, .op .Archive]) ∧
          (Build w manifest (State.start fs)).2.trace =
            pre ++ [.op .tar, .writeManifest, .op .yamlMarshal, .op .WriteFile, .writeLicense,
              .op .goModDownload]) ∧
        (stepResult w manifest (.op .tar) = none ∧
          stepResult w manifest .writeManifest = none) ∧
        (Event.op .osCreate ∉ (Build w manifest (State.start fs)).2.trace ∧
          Event.op .licenseLint ∉ (Build w manifest (State.start fs)).2.trace) ∧
        ((Build w manifest (State.start fs)).2.fs =
            (fs.write (sourcesPath manifest) w.tarball).write (manifestPath manifest) w.yml ∧
          (Build w manifest (State.start fs)).2.fs (sourcesPath manifest) ≠ none ∧
          (Build w manifest (State.start fs)).2.fs (manifestPath manifest) = some w.yml) ∧
        (Build w manifest (State.start fs)).1 =
          some (.errorf ("failed to package license file: " ++ err.Error))) ∧
    (Event.op .licenseLint ∈ (Build w manifest (State.start fs)).2.trace →
      w.outcome .goModDownload = none ∧
      ∃ pre, Event.op .licenseLint ∉ pre ∧
        (Build w manifest (State.start fs)).2.trace =
          pre ++ [.op .goModDownload, .op .osCreate, .op .licenseLint]) := by
  refine ⟨?_, ?_, ?_⟩
  · intro s err hF
    simp [writeLicense, call, hF, State.log]
  · intro err hinv hF
    obtain ⟨htar, hy, hw, pre, hpre, hB⟩ :=
      Build_at_writeLicense w manifest fs _ (by simp) hinv
    have hB1 : Build w manifest (State.start fs) =
        (some (.errorf ("failed to package license file: " ++ err.Error)),
          { trace := pre ++ [.op .tar, .writeManifest, .op .yamlMarshal, .op .WriteFile,
              .writeLicense, .op .goModDownload],
            fs := (fs.write (sourcesPath manifest) w.tarball).write (manifestPath manifest)
              w.yml }) := by
      rw [hB]
      simp [writeLicense, call, hF, State.log, Errorf]
    have hp1 : Event.op .osCreate ∉ pre := fun h => absurd (hpre _ h) (by decide)
    have hp2 : Event.op .licenseLint ∉ pre := fun h => absurd (hpre _ h) (by decide)
    rw [hB1]
    refine ⟨⟨pre, hpre, rfl⟩, ⟨?_, ?_⟩, ⟨?_, ?_⟩, ⟨rfl, ?_, ?_⟩, rfl⟩
    · rw [stepResult_op]; exact htar
    · simp [stepResult, exec, writeManifest, yamlMarshal, WriteFile, hy, hw]
    · simp [hp1]
    · simp [hp2]
    · exact write_ne_none _ _ _ _ (by rw [write_self]; simp)
    · exact write_self _ _ _
  · intro hinv
    obtain ⟨_, _, _, pre, hpre, hB⟩ :=
      Build_at_writeLicense w manifest fs _ (by simp) hinv
    have hp : Event.op .licenseLint ∉ pre := fun h => absurd (hpre _ h) (by decide)
    rw [hB] at hinv ⊢
    cases hF : w.outcome .goModDownload with
    | some e => simp [writeLicense, call, hF, State.log, hp] at hinv
    | none =>
      cases hC : w.outcome .osCreate with
      | some e => simp [writeLicense, call, hF, osCreate, hC, State.log, hp] at hinv
      | none =>
        refine ⟨rfl, pre ++ [.op .tar, .writeManifest, .op .yamlMarshal, .op .WriteFile,
          .writeLicense], ?_, ?_⟩
        · simp [hp]
        · cases hL : w.outcome .licenseLint <;>
            simp [writeLicense, call, hF, osCreate, hC, licenseLintRun, hL, State.log]

/-- C8, witness: nothing is asked for and `go mod download` fails; the run ends
with the fetch, the bundle and the manifest are there, `LICENSES` is not. -/
theorem writeLicense_fetch_failure_witness :
    (Event.op .goModDownload ∈
        (Build (failingAt .goModDownload) (manifestOf []) (State.start noFiles)).2.trace ∧
      (failingAt .goModDownload).outcome .goModDownload = some (.cause 1 "exit status 1")) ∧
    (Event.op .osCreate ∉
        (Build (failingAt .goModDownload) (manifestOf []) (State.start noFiles)).2.trace ∧
      Event.op .licenseLint ∉
        (Build (failingAt .goModDownload) (manifestOf []) (State.start noFiles)).2.trace) ∧
    (Build (failingAt .goModDownload) (manifestOf []) (State.start noFiles)).2.trace =
      [.op .SanitizeAllCharts, .op .tar, .writeManifest, .op .yamlMarshal, .op .WriteFile,
        .writeLicense, .op .goModDownload] ∧
    (Build (failingAt .goModDownload) (manifestOf []) (State.start noFiles)).2.fs
      "/work/out/LICENSES" = none ∧
    (Event.op .licenseLint ∈ (Build okWorld (manifestOf []) (State.start noFiles)).2.trace ∧
      okWorld.outcome .goModDownload = none) :=
  ⟨⟨by decide, by decide⟩,
    ((writeLicense_fetch_failure (failingAt .goModDownload) (manifestOf []) noFiles).2.1
      (.cause 1 "exit status 1") (by decide) (by decide)).2.2.1,
    by decide, by decide, by decide,
    ((writeLicense_fetch_failure okWorld (manifestOf []) noFiles).2.2 (by decide)).1⟩

/-- C9, as stated, fails: the fetch succeeds, creating `LICENSES` fails, the scan
is never run (and would not fail), yet `writeLicense` returns an error; so
`writeLicense` fails although neither of the two phases failed. -/
theorem writeLicense_fails_on_create :
    (writeLicense readOnlyOut (manifestOf []) (State.start noFiles)).1 =
      some (.cause 13 "open /work/out/LICENSES: permission denied") ∧
    readOnlyOut.outcome .goModDownload = none ∧
    readOnlyOut.outcome .licenseLint = none ∧
    Event.op .licenseLint ∉
      (writeLicense readOnlyOut (manifestOf []) (State.start noFiles)).2.trace ∧
    ¬ ((writeLicense readOnlyOut (manifestOf []) (State.start noFiles)).1 ≠ none ↔
      (readOnlyOut.outcome .goModDownload ≠ none ∨ readOnlyOut.outcome .licenseLint ≠ none)) :=
  ⟨by decide, by decide, by decide, by decide, by decide⟩

/-- C9, amended: `writeLicense` fails if and only if the fetch, the creation of
the `LICENSES` file or the scan fails. If the fetch fails with `e` it returns
exactly `e`; if the fetch succeeds and the creation fails with `e` it returns
exactly `e`; if both succeed and the scan fails with `e` it returns an error
whose message is a fixed text followed by the message of `e`; if all three
succeed it returns nil. -/
theorem writeLicense_result (w : World) (manifest : Manifest) (s : State) :
    ((writeLicense w manifest s).1 ≠ none ↔
      (w.outcome .goModDownload ≠ none ∨ w.outcome .osCreate ≠ none ∨
        w.outcome .licenseLint ≠ none)) ∧
    (∀ e, w.outcome .goModDownload = some e → (writeLicense w manifest s).1 = some e) ∧
    (∀ e, w.outcome .goModDownload = none → w.outcome .osCreate = some e →
      (writeLicense w manifest s).1 = some e) ∧
    (∀ e, w.outcome .goModDownload = none → w.outcome .osCreate = none →
      w.outcome .licenseLint = some e →
      ∃ r, (writeLicense w manifest s).1 = some r ∧
        r.Error = "unable to generate license report for the istio repo: " ++ e.Error) ∧
    (w.outcome .goModDownload = none → w.outcome .osCreate = none →
      w.outcome .licenseLint = none → (writeLicense w manifest s).1 = none) := by
  refine ⟨?_, ?_, ?_, ?_, ?_⟩
  · cases hF : w.outcome .goModDownload <;> cases hC : w.outcome .osCreate <;>
      cases hL : w.outcome .licenseLint <;>
      simp [writeLicense, call, osCreate, licenseLintRun, hF, hC, hL]
  · intro e hF
    simp [writeLicense, call, hF]
  · intro e hF hC
    simp [writeLicense, call, osCreate, hF, hC]
  · intro e hF hC hL
    exact ⟨Errorf "unable to generate license report for the istio repo: " e,
      by simp [writeLicense, call, osCreate, licenseLintRun, hF, hC, hL], rfl⟩
  · intro hF hC hL
    simp [writeLicense, call, osCreate, licenseLintRun, hF, hC, hL]

/-- C9, witness of the amended claim: the scan fails with `exit status 1`. -/
theorem writeLicense_result_witness :
    ((failingAt .licenseLint).outcome .goModDownload = none ∧
      (failingAt .licenseLint).outcome .osCreate = none ∧
      (failingAt .licenseLint).outcome .licenseLint = some (.cause 1 "exit status 1")) ∧
    ∃ r, (writeLicense (failingAt .licenseLint) (manifestOf []) (State.start noFiles)).1 =
        some r ∧
      r.Error = "unable to generate license report for the istio repo: " ++
        (GoError.cause 1 "exit status 1").Error :=
  ⟨⟨by decide, by decide, by decide⟩,
    (writeLicense_result (failingAt .licenseLint) (manifestOf []) (State.start noFiles)).2.2.2.1
      (.cause 1 "exit status 1") (by decide) (by decide) (by decide)⟩

/-- C10: in `writeLicense`, after a successful fetch, (1) if `os.Create` succeeds
then the state it leaves, which is the state the scan is started in, has the
`LICENSES` file, empty, and differs from the state before only by that file and
the log; the scan is the next and last operation, and `writeLicense` returns what
the scan returns, wrapped when it is an error; (2) if the scan then fails,
`writeLicense` returns an error and the file is still there, holding what the tool
printed; (3) if `os.Create` fails, the scan is not run, nothing is written and
the creation error is returned unchanged. -/
theorem writeLicense_create_then_scan (w : World) (manifest : Manifest) (s : State)
    (hF : w.outcome .goModDownload = none) :
    (w.outcome .osCreate = none →
      beforeScan w manifest s =
        { trace := s.trace ++ [.writeLicense, .op .goModDownload, .op .osCreate],
          fs := s.fs.write (licensesPath manifest) "" } ∧
      (beforeScan w manifest s).fs (licensesPath manifest) = some "" ∧
      writeLicense w manifest s =
        (match licenseLintRun w (licensesPath manifest) (beforeScan w manifest s) with
         | (some err, s2) =>
           (some (Errorf "unable to generate license report for the istio repo: " err), s2)
         | (none, s2) => (none, s2)) ∧
      (writeLicense w manifest s).2.trace =
        (beforeScan w manifest s).trace ++ [.op .licenseLint] ∧
      (writeLicense w manifest s).2.fs (licensesPath manifest) ≠ none) ∧
    (∀ e, w.outcome .osCreate = none → w.outcome .licenseLint = some e →
      (writeLicense w manifest s).1 ≠ none ∧
      (writeLicense w manifest s).2.fs (licensesPath manifest) = some w.report) ∧
    (∀ e, w.outcome .osCreate = some e →
      writeLicense w manifest s =
        (some e, { trace := s.trace ++ [.writeLicense, .op .goModDownload, .op .osCreate],
                   fs := s.fs })) := by
  refine ⟨?_, ?_, ?_⟩
  · intro hC
    have hb : beforeScan w manifest s =
        { trace := s.trace ++ [.writeLicense, .op .goModDownload, .op .osCreate],
          fs := s.fs.write (licensesPath manifest) "" } := by
      simp [beforeScan, osCreate, call, hC, State.log, licensesPath]
    refine ⟨hb, ?_, ?_, ?_, ?_⟩
    · rw [hb]
      exact write_self _ _ _
    · rw [hb]
      cases hL : w.outcome .licenseLint <;>
        simp [writeLicense, call, osCreate, licenseLintRun, hF, hC, hL, State.log, licensesPath]
    · rw [hb]
      cases hL : w.outcome .licenseLint <;>
        simp [writeLicense, call, osCreate, licenseLintRun, hF, hC, hL, State.log]
    · cases hL : w.outcome .licenseLint <;>
        simp [writeLicense, call, osCreate, licenseLintRun, hF, hC, hL, State.log, licensesPath,
          FS.write]
  · intro e hC hL
    constructor
    · simp [writeLicense, call, osCreate, licenseLintRun, hF, hC, hL]
    · simp [writeLicense, call, osCreate, licenseLintRun, hF, hC, hL, State.log, licensesPath,
        FS.write]
  · intro e hC
    simp [writeLicense, call, osCreate, hF, hC, State.log]

/-- C10, witness: the fetch and `os.Create` succeed and the scan fails. The scan
is started with an empty `LICENSES` on disk; `writeLicense` returns an error and
`LICENSES` is still on disk. -/
theorem writeLicense_create_then_scan_witness :
    ((failingAt .licenseLint).outcome .goModDownload = none ∧
      (failingAt .licenseLint).outcome .osCreate = none ∧
      (failingAt .licenseLint).outcome .licenseLint = some (.cause 1 "exit status 1")) ∧
    (beforeScan (failingAt .licenseLint) (manifestOf []) (State.start noFiles)).fs
      (licensesPath (manifestOf [])) = some "" ∧
    (writeLicense (failingAt .licenseLint) (manifestOf []) (State.start noFiles)).1 ≠ none ∧
    (writeLicense (failingAt .licenseLint) (manifestOf []) (State.start noFiles)).2.fs
      (licensesPath (manifestOf [])) = some "MIT" :=
  ⟨⟨by decide, by decide, by decide⟩,
    ((writeLicense_create_then_scan (failingAt .licenseLint) (manifestOf []) (State.start noFiles)
      (by decide)).1 (by decide)).2.1,
    (writeLicense_create_then_scan (failingAt .licenseLint) (manifestOf []) (State.start noFiles)
      (by decide)).2.1 (.cause 1 "exit status 1") (by decide) (by decide)⟩

end build
